import Mathlib

/-!
Verification of the Cubeflix Binary Format codec (cbf.py).

The embedding models Python byte strings and streams as `List Nat` (each
element one byte), Python `str` values as lists of Unicode code points
(`List Nat`), Python `int` as `Int`, and Python `float` by its 64-bit IEEE-754
bit pattern (a `Nat`), since `struct.pack('d', x)` / `struct.unpack('d', b)`
are byte-level identities on that pattern.  Fallible Python operations are
modelled in the `Except` monad with one error constructor per Python
exception the code can raise.
-/

namespace Cbf

/-- Errors raised by the Python code.  Each constructor stands for one Python
exception: `SizeError`, `OverflowError` (from `int.to_bytes`),
`UnicodeEncodeError` (from `str.encode('ascii')`), `UnicodeDecodeError`
(from `bytes.decode`), `IndexError` (from `file.read(1)[0]` at EOF),
`struct.error` (from `struct.unpack` on a short buffer), `EOFError`
(from `ReadableBlob.read`), `ValueError` (negative stream seek), and
`InvalidCBFFileError` with its three distinct messages: invalid header,
invalid data type, invalid boolean value.  `fuelOut` is an artifact of the
embedding's termination fuel for the decoder and is unreachable for the
fuel budget the top-level `load` supplies on the inputs considered here. -/
inductive PyError where
  | sizeError
  | overflowError
  | unicodeEncodeError
  | unicodeDecodeError
  | indexError
  | structError
  | eofError
  | valueError
  | invalidHeader
  | invalidDataType
  | invalidBool
  | fuelOut
  deriving DecidableEq, Repr

/-- Little-endian byte list of width `w` for a natural number (the byte string
`n.to_bytes(w, 'little')` produces when it succeeds; high bits beyond `w`
bytes are cut, which never happens on the success path of `to_bytes`). -/
def leBytes : Nat → Nat → List Nat
  | 0, _ => []
  | w + 1, n => n % 256 :: leBytes w (n / 256)

/-- Unsigned little-endian value of a byte list, as
`int.from_bytes(bs, 'little', signed=False)` computes it. -/
def fromLE : List Nat → Nat
  | [] => 0
  | b :: rest => b + 256 * fromLE rest

/-- Signed little-endian value of a byte list, as
`int.from_bytes(bs, 'little', signed=True)` computes it (two's complement
over the whole width; the empty byte string gives 0). -/
def fromLEsigned (bs : List Nat) : Int :=
  if 0 < bs.length ∧ 2 ^ (8 * bs.length - 1) ≤ fromLE bs then
    (fromLE bs : Int) - 2 ^ (8 * bs.length)
  else
    (fromLE bs : Int)

/-- Python `n.to_bytes(w, 'little')` for a nonnegative `int` held in a `Nat`:
raises `OverflowError` when the value does not fit in `w` bytes. -/
def natToBytes (w n : Nat) : Except PyError (List Nat) :=
  if n < 2 ^ (8 * w) then .ok (leBytes w n) else .error .overflowError

/-- Python `v.to_bytes(w, 'little')` on an `int`: the default is
`signed=False`, so every negative value raises `OverflowError`, as does a
value of `w` bytes or more. -/
def intToBytes (w : Nat) (v : Int) : Except PyError (List Nat) :=
  if 0 ≤ v ∧ v < 2 ^ (8 * w) then .ok (leBytes w v.toNat) else .error .overflowError

/-- UTF-8 encoding of one code point (1 to 4 bytes). -/
def utf8Char (c : Nat) : List Nat :=
  if c < 0x80 then [c]
  else if c < 0x800 then [0xC0 + c / 64, 0x80 + c % 64]
  else if c < 0x10000 then [0xE0 + c / 4096, 0x80 + c / 64 % 64, 0x80 + c % 64]
  else [0xF0 + c / 262144, 0x80 + c / 4096 % 64, 0x80 + c / 64 % 64, 0x80 + c % 64]

/-- Python `s.encode('utf-8')`: concatenation of the UTF-8 bytes of each
code point of the string. -/
def utf8Encode : List Nat → List Nat
  | [] => []
  | c :: rest => utf8Char c ++ utf8Encode rest

/-- Whether a byte is a UTF-8 continuation byte (`0x80 ≤ b < 0xC0`). -/
def isCont (b : Nat) : Bool := 0x80 ≤ b && b < 0xC0

/-- Python `bs.decode('utf-8')` in strict mode: rejects stray or missing
continuation bytes, overlong encodings, surrogates, code points above
`0x10FFFF`, and invalid leading bytes. -/
def utf8Decode : List Nat → Option (List Nat)
  | [] => some []
  | b :: rest =>
    if b < 0x80 then
      (utf8Decode rest).map (b :: ·)
    else if b < 0xC0 then
      none
    else if b < 0xE0 then
      match rest with
      | b2 :: rest2 =>
        if isCont b2 then
          let c := (b - 0xC0) * 64 + (b2 - 0x80)
          if c < 0x80 then none else (utf8Decode rest2).map (c :: ·)
        else none
      | _ => none
    else if b < 0xF0 then
      match rest with
      | b2 :: b3 :: rest3 =>
        if isCont b2 && isCont b3 then
          let c := (b - 0xE0) * 4096 + (b2 - 0x80) * 64 + (b3 - 0x80)
          if c < 0x800 ∨ (0xD800 ≤ c ∧ c < 0xE000) then none
          else (utf8Decode rest3).map (c :: ·)
        else none
      | _ => none
    else if b < 0xF5 then
      match rest with
      | b2 :: b3 :: b4 :: rest4 =>
        if isCont b2 && isCont b3 && isCont b4 then
          let c := (b - 0xF0) * 262144 + (b2 - 0x80) * 4096 + (b3 - 0x80) * 64 + (b4 - 0x80)
          if c < 0x10000 ∨ 0x10FFFF < c then none
          else (utf8Decode rest4).map (c :: ·)
        else none
      | _ => none
    else none

/-- Python `s.encode('ascii')` on a string of code points: succeeds with the
identical byte values exactly when every code point is below 128, and raises
`UnicodeEncodeError` otherwise. -/
def asciiEncode (s : List Nat) : Except PyError (List Nat) :=
  if s.all (· < 128) then .ok s else .error .unicodeEncodeError

/-- Python `bs.decode('ascii')`: succeeds exactly when every byte is below
128, giving the identical code points. -/
def asciiDecode (bs : List Nat) : Except PyError (List Nat) :=
  if bs.all (· < 128) then .ok bs else .error .unicodeDecodeError

mutual
/-- The tagged variant of values a dataset entry can hold on the encode side
(`VALID_TYPES` in cbf.py).  A write-source blob is represented by the bytes
it streams; its declared `length` is the length of that list.  A float is
represented by its 64-bit IEEE-754 bit pattern. -/
inductive Value where
  | vnone
  | vblob (data : List Nat)
  | vdataset (entries : Entries)
  | vstr (s : List Nat)
  | vint (n : Int)
  | vfloat (bits : Nat)
  | vbytes (b : List Nat)
  | vbool (b : Bool)
  deriving DecidableEq, Repr

/-- An ordered dataset: the insertion-ordered key/value pairs of a Python
dict, keys being strings (code-point lists). -/
inductive Entries where
  | nil
  | cons (key : List Nat) (v : Value) (rest : Entries)
  deriving DecidableEq, Repr
end

/-- Number of entries of a dataset (`len(dataset)`). -/
def entriesLen : Entries → Nat
  | .nil => 0
  | .cons _ _ rest => entriesLen rest + 1

/-- MAX_KEY_LEN in cbf.py. -/
def MAX_KEY_LEN : Nat := 65535

mutual
/-- The size contribution of one value in `_calculate_block_size`, following
the isinstance dispatch chain of cbf.py lines 134-159.  Because Python `bool`
is a subclass of `int`, the `isinstance(value, int)` branch catches booleans
before the `isinstance(value, bool)` branch is reached, so a bool contributes
8 bytes, not 1. -/
def calcValue : Value → Except PyError Nat
  | .vnone => .ok 0
  | .vblob _ => .ok 16
  | .vdataset sub =>
    match calcEntries sub with
    | .error e => .error e
    | .ok s => .ok (8 + s)
  | .vstr s => .ok (8 + (utf8Encode s).length)
  | .vint _ => .ok 8
  | .vfloat _ => .ok 8
  | .vbytes b => .ok (8 + b.length)
  | .vbool _ => .ok 8

/-- The per-entry loop of `_calculate_block_size`: one byte for the type tag,
the key length check against MAX_KEY_LEN, `2 + len(key)` for the key framing,
then the value's size. -/
def calcEntries : Entries → Except PyError Nat
  | .nil => .ok 0
  | .cons k v rest =>
    if MAX_KEY_LEN < k.length then .error .sizeError
    else
      match calcValue v with
      | .error e => .error e
      | .ok vs =>
        match calcEntries rest with
        | .error e => .error e
        | .ok rs => .ok (1 + (2 + k.length) + vs + rs)
end

/-- `_calculate_block_size` of cbf.py: 8 bytes for the entry-count field plus
the entries' sizes. -/
def _calculate_block_size (d : Entries) : Except PyError Nat :=
  match calcEntries d with
  | .error e => .error e
  | .ok s => .ok (8 + s)

mutual
/-- The per-value write of `_dump_block` (the isinstance dispatch of cbf.py
lines 178-220): returns the tag-and-payload bytes together with the updated
running offset `current_estimated_file_length`.  Notable faithful details:
a blob writes the current running offset and its declared length and advances
the offset; a string writes `len(value)` — the CHARACTER count — as the
length prefix, followed by the UTF-8 bytes; an int uses `to_bytes` with the
default `signed=False`; a bool is caught by the earlier `isinstance(value,
int)` branch (bool is a subclass of int), so it is written with tag 0x04 as
an 8-byte integer and the TYPE_BOOL branch is unreachable. -/
def dumpValue : Value → Nat → Except PyError (List Nat × Nat)
  | .vnone, pos => .ok ([0x00], pos)
  | .vblob data, pos =>
    match natToBytes 8 pos with
    | .error e => .error e
    | .ok off =>
      match natToBytes 8 data.length with
      | .error e => .error e
      | .ok len => .ok (0x01 :: (off ++ len), pos + data.length)
  | .vdataset sub, pos =>
    match natToBytes 8 (entriesLen sub) with
    | .error e => .error e
    | .ok cnt =>
      match dumpEntries sub pos with
      | .error e => .error e
      | .ok (bs, pos') => .ok (0x02 :: (cnt ++ bs), pos')
  | .vstr s, pos =>
    match natToBytes 8 s.length with
    | .error e => .error e
    | .ok slen => .ok (0x03 :: (slen ++ utf8Encode s), pos)
  | .vint n, pos =>
    match intToBytes 8 n with
    | .error e => .error e
    | .ok b => .ok (0x04 :: b, pos)
  | .vfloat bits, pos => .ok (0x06 :: leBytes 8 bits, pos)
  | .vbytes b, pos =>
    match natToBytes 8 b.length with
    | .error e => .error e
    | .ok blen => .ok (0x07 :: (blen ++ b), pos)
  | .vbool b, pos =>
    match intToBytes 8 (if b then 1 else 0) with
    | .error e => .error e
    | .ok bb => .ok (0x04 :: bb, pos)

/-- The per-entry loop of `_dump_block`: writes `len(key).to_bytes(2,
'little')`, then `key.encode('ascii')`, then the value, threading the running
offset through to the remaining entries. -/
def dumpEntries : Entries → Nat → Except PyError (List Nat × Nat)
  | .nil, pos => .ok ([], pos)
  | .cons k v rest, pos =>
    match natToBytes 2 k.length with
    | .error e => .error e
    | .ok klen =>
      match asciiEncode k with
      | .error e => .error e
      | .ok kb =>
        match dumpValue v pos with
        | .error e => .error e
        | .ok (vb, pos1) =>
          match dumpEntries rest pos1 with
          | .error e => .error e
          | .ok (rb, pos2) => .ok (klen ++ kb ++ vb ++ rb, pos2)
end

/-- `_dump_block` of cbf.py: writes `len(dataset).to_bytes(8, 'little')` and
then each key-value pair, returning the bytes and the new running offset. -/
def _dump_block (d : Entries) (pos : Nat) : Except PyError (List Nat × Nat) :=
  match natToBytes 8 (entriesLen d) with
  | .error e => .error e
  | .ok cnt =>
    match dumpEntries d pos with
    | .error e => .error e
    | .ok (bs, pos') => .ok (cnt ++ bs, pos')

mutual
/-- The blob bytes one value contributes to the binary section: a blob
streams its payload, a nested dataset recurses, everything else writes
nothing. -/
def binaryValue : Value → List Nat
  | .vblob data => data
  | .vdataset sub => binaryEntries sub
  | _ => []

/-- `_dump_binary` of cbf.py: the binary section, i.e. every blob's payload
in depth-first entry order. -/
def binaryEntries : Entries → List Nat
  | .nil => []
  | .cons _ v rest => binaryValue v ++ binaryEntries rest
end

/-- The 3-byte header `'CB' + CBF_VERSION` with version character 'A':
bytes 0x43 0x42 0x41. -/
def CBF_HEADER : List Nat := [0x43, 0x42, 0x41]

/-- `dump` of cbf.py: computes the binary starting offset as 3 plus the
metadata block size (this is where `SizeError` surfaces, before any byte is
produced), then emits header, metadata block and binary section. -/
def dump (d : Entries) : Except PyError (List Nat) :=
  match _calculate_block_size d with
  | .error e => .error e
  | .ok n =>
    match _dump_block d (3 + n) with
    | .error e => .error e
    | .ok (bs, _) => .ok (CBF_HEADER ++ bs ++ binaryEntries d)

mutual
/-- A decoded Python value as `_load_block` produces it.  A decoded blob is a
`ReadableBlob` handle holding its location and size (the shared stream is
implicit).  `vtuple1 bits` is the one-element tuple `struct.unpack('d', b)`
returns for the 8-byte buffer with bit pattern `bits` — the format string
`'d'` has exactly one code, so the tuple always has exactly one element.
`vfloat` is the scalar double such an entry would have to produce to satisfy
the specification; the decoder never builds it. -/
inductive PyVal where
  | vnone
  | vblob (location size : Nat)
  | vdataset (entries : PyEntries)
  | vstr (s : List Nat)
  | vint (n : Int)
  | vfloat (bits : Nat)
  | vtuple1 (bits : Nat)
  | vbytes (b : List Nat)
  | vbool (b : Bool)
  deriving DecidableEq, Repr

/-- The entries of a decoded dataset, in insertion order. -/
inductive PyEntries where
  | nil
  | cons (key : List Nat) (v : PyVal) (rest : PyEntries)
  deriving DecidableEq, Repr
end

/-- Python dict assignment `block[key] = value`: replaces the value in place
if the key is present (keeping its position), appends otherwise. -/
def storeKey : PyEntries → List Nat → PyVal → PyEntries
  | .nil, k, v => .cons k v .nil
  | .cons k' v' rest, k, v =>
    if k' = k then .cons k' v rest else .cons k' v' (storeKey rest k v)

/-- The `for _ in range(length)` loop of `_load_block` over a stream
modelled by the list of its not yet consumed bytes: reads the 2-byte key
length, the key — `file.read(keyLen)` silently returns fewer bytes at EOF —
decoded as ASCII, the 1-byte type tag (`file.read(1)[0]` raises `IndexError`
on an empty read), and dispatches on the tag exactly as the if/elif chain of
cbf.py lines 265-294 does.  The TYPE_DATASET case inlines the recursive
`_load_block` call: read the nested 8-byte entry count, run the loop on the
nested block, resume the current loop on the remaining stream.  `fuel` only
bounds the recursion depth of the embedding (one unit per loop step); it is
structural so that the kernel can evaluate the decoder, and the caller always
passes more fuel than the loop can consume. -/
def loadLoop : Nat → Nat → List Nat → PyEntries → Except PyError (PyEntries × List Nat)
  | 0, _, _, _ => .error .fuelOut
  | _ + 1, 0, s, acc => .ok (acc, s)
  | fuel + 1, c + 1, s, acc =>
      let keyLen := fromLE (s.take 2)
      let s1 := s.drop 2
      match asciiDecode (s1.take keyLen) with
      | .error e => .error e
      | .ok key =>
        let s2 := s1.drop keyLen
        match s2 with
        | [] => .error .indexError
        | t :: s3 =>
          if t = 0x00 then
            loadLoop fuel c s3 (storeKey acc key .vnone)
          else if t = 0x01 then
            let location := fromLE (s3.take 8)
            let size := fromLE ((s3.drop 8).take 8)
            loadLoop fuel c ((s3.drop 8).drop 8)
              (storeKey acc key (.vblob location size))
          else if t = 0x02 then
            match loadLoop fuel (fromLE (s3.take 8)) (s3.drop 8) .nil with
            | .error e => .error e
            | .ok (sub, s4) =>
              loadLoop fuel c s4 (storeKey acc key (.vdataset sub))
          else if t = 0x03 then
            let strLen := fromLE (s3.take 8)
            match utf8Decode ((s3.drop 8).take strLen) with
            | none => .error .unicodeDecodeError
            | some str =>
              loadLoop fuel c ((s3.drop 8).drop strLen)
                (storeKey acc key (.vstr str))
          else if t = 0x04 then
            loadLoop fuel c (s3.drop 8)
              (storeKey acc key (.vint (fromLEsigned (s3.take 8))))
          else if t = 0x05 then
            loadLoop fuel c (s3.drop 8)
              (storeKey acc key (.vint (fromLE (s3.take 8))))
          else if t = 0x06 then
            if (s3.take 8).length = 8 then
              loadLoop fuel c (s3.drop 8)
                (storeKey acc key (.vtuple1 (fromLE (s3.take 8))))
            else .error .structError
          else if t = 0x07 then
            let bytesLen := fromLE (s3.take 8)
            loadLoop fuel c ((s3.drop 8).drop bytesLen)
              (storeKey acc key (.vbytes ((s3.drop 8).take bytesLen)))
          else if t = 0x08 then
            match s3 with
            | [] => .error .indexError
            | rawVal :: s4 =>
              if rawVal = 0x00 then
                loadLoop fuel c s4 (storeKey acc key (.vbool false))
              else if rawVal = 0xFF then
                loadLoop fuel c s4 (storeKey acc key (.vbool true))
              else .error .invalidBool
          else .error .invalidDataType

/-- `_load_block` of cbf.py: reads the 8-byte entry count (`file.read(8)`
silently returns fewer bytes at EOF, and `int.from_bytes` accepts them) and
runs the entry loop. -/
def loadBlock (fuel : Nat) (s : List Nat) : Except PyError (PyEntries × List Nat) :=
  match fuel with
  | 0 => .error .fuelOut
  | f + 1 => loadLoop f (fromLE (s.take 8)) (s.drop 8) .nil

/-- `load` of cbf.py: verifies the 3-byte header and reads the root dataset
block; trailing bytes (the binary section) are left unread.  The fuel
`s.length + 2` strictly exceeds the number of loop steps the decoder can take
on the inputs of this development. -/
def load (s : List Nat) : Except PyError PyEntries :=
  if s.take 3 ≠ CBF_HEADER then .error .invalidHeader
  else
    match loadBlock (s.length + 2) (s.drop 3) with
    | .error e => .error e
    | .ok (block, _) => .ok block

/-- `ReadableBlob.read` of cbf.py against the full file contents: checks
`offset + n > self.size` first (raising `EOFError`), then seeks the shared
stream to `location + offset` (a negative target raises `ValueError` in the
underlying stream) and reads `n` bytes from there. -/
def blobRead (file : List Nat) (location size : Nat) (n : Nat) (offset : Int) :
    Except PyError (List Nat) :=
  if (size : Int) < offset + n then .error .eofError
  else if (location : Int) + offset < 0 then .error .valueError
  else .ok ((file.drop ((location : Int) + offset).toNat).take n)

/-- `ReadableBlob.read_all` of cbf.py: seeks to `location` and reads `size`
bytes. -/
def readAll (file : List Nat) (location size : Nat) : List Nat :=
  (file.drop location).take size

mutual
/-- Total declared blob length contributed by one value: a blob contributes
its declared length, a nested dataset the sum over its entries, anything
else nothing. -/
def blobLenValue : Value → Nat
  | .vblob data => data.length
  | .vdataset sub => sumBlobLens sub
  | _ => 0

/-- Sum of the declared lengths of all blobs of a dataset in depth-first
entry order. -/
def sumBlobLens : Entries → Nat
  | .nil => 0
  | .cons _ v rest => blobLenValue v + sumBlobLens rest
end

/-- Whether a value is neither a blob nor a nested dataset, i.e. carries no
blob offsets and no blob payload. -/
def isScalar : Value → Bool
  | .vblob _ => false
  | .vdataset _ => false
  | _ => true

/-- Follows the spec's words (§4.3): `OffsetsFrom pos d bs pos'` holds when
`bs` encodes the entries `d` such that every blob entry's 8-byte offset field
holds the running offset — which starts at `pos`, is advanced only by blob
lengths, in depth-first entry order, and ends at `pos'` — and its 8-byte size
field holds the blob's declared length.  Entries that are neither blobs nor
datasets may carry an arbitrary payload `junk`, since the claim constrains
only the offsets. -/
inductive OffsetsFrom : Nat → Entries → List Nat → Nat → Prop where
  | nil (pos : Nat) : OffsetsFrom pos .nil [] pos
  | scalar (pos : Nat) (k : List Nat) (v : Value) (junk rest_bs : List Nat)
      (rest : Entries) (pos' : Nat) :
      isScalar v = true →
      OffsetsFrom pos rest rest_bs pos' →
      OffsetsFrom pos (.cons k v rest)
        (leBytes 2 k.length ++ k ++ junk ++ rest_bs) pos'
  | blob (pos : Nat) (k data rest_bs : List Nat) (rest : Entries) (pos' : Nat) :
      OffsetsFrom (pos + data.length) rest rest_bs pos' →
      OffsetsFrom pos (.cons k (.vblob data) rest)
        (leBytes 2 k.length ++ k ++ 0x01 ::
          (leBytes 8 pos ++ leBytes 8 data.length) ++ rest_bs) pos'
  | dataset (pos : Nat) (k : List Nat) (sub : Entries) (sub_bs rest_bs : List Nat)
      (rest : Entries) (posMid pos' : Nat) :
      OffsetsFrom pos sub sub_bs posMid →
      OffsetsFrom posMid rest rest_bs pos' →
      OffsetsFrom pos (.cons k (.vdataset sub) rest)
        (leBytes 2 k.length ++ k ++ 0x02 ::
          (leBytes 8 (entriesLen sub) ++ sub_bs) ++ rest_bs) pos'

theorem leBytes_length (w n : Nat) : (leBytes w n).length = w := by
  induction w generalizing n with
  | zero => rfl
  | succ w ih => simp [leBytes, ih]

/-- Master lemma for the encoder: whenever the per-entry writer succeeds, the
bytes it wrote satisfy the spec's offset discipline `OffsetsFrom` (every blob
offset field holds the running offset, which starts at `pos` and advances
only by blob lengths), the returned running offset has advanced by exactly
the total declared blob length, and the number of bytes written is exactly
what the Size Calculator predicts for these entries. -/
theorem dumpEntries_spec (d : Entries) : ∀ pos bs pos',
    dumpEntries d pos = .ok (bs, pos') →
    OffsetsFrom pos d bs pos' ∧ pos' = pos + sumBlobLens d ∧
      calcEntries d = .ok bs.length := by
  match d with
  | .nil =>
    intro pos bs pos' h
    simp only [dumpEntries, Except.ok.injEq, Prod.mk.injEq] at h
    obtain ⟨rfl, rfl⟩ := h
    exact ⟨.nil pos, by simp [sumBlobLens], by simp [calcEntries]⟩
  | .cons k v rest =>
    intro pos bs pos' h
    simp only [dumpEntries] at h
    split at h
    · cases h
    next klen hk =>
      split at h
      · cases h
      next kb hkb =>
        split at h
        · cases h
        next vb pos1 hv =>
          split at h
          · cases h
          next rb pos2 hr =>
            injection h with h1
            injection h1 with hbs hpos
            subst hpos
            subst hbs
            unfold natToBytes at hk
            split at hk
            case isFalse => cases hk
            next hklt =>
            injection hk with hklen
            subst hklen
            unfold asciiEncode at hkb
            split at hkb
            case isFalse => cases hkb
            next hkascii =>
            injection hkb with hkbk
            subst hkbk
            have h65 : ¬ (MAX_KEY_LEN < k.length) := by
              simp only [MAX_KEY_LEN]; omega
            obtain ⟨ihr1, ihr2, ihr3⟩ := dumpEntries_spec rest pos1 rb pos2 hr
            cases v with
            | vnone =>
              simp only [dumpValue, Except.ok.injEq, Prod.mk.injEq] at hv
              obtain ⟨hvb, hpos1⟩ := hv
              subst hpos1; subst hvb
              refine ⟨?_, ?_, ?_⟩
              · simpa only [List.append_assoc, List.cons_append, List.nil_append]
                  using OffsetsFrom.scalar pos k .vnone [0x00] rb rest pos2 rfl ihr1
              · simp only [sumBlobLens, blobLenValue]; omega
              · simp only [calcEntries, if_neg h65, calcValue, ihr3,
                  List.length_append, leBytes_length, List.length_cons,
                  List.length_nil, Except.ok.injEq]
                omega
            | vblob data =>
              simp only [dumpValue] at hv
              split at hv
              · cases hv
              next off hoff =>
                split at hv
                · cases hv
                next len hlen =>
                  injection hv with hv1
                  injection hv1 with hvb hpos1
                  subst hpos1; subst hvb
                  unfold natToBytes at hoff hlen
                  split at hoff
                  case isFalse => cases hoff
                  next hposlt =>
                  injection hoff with hoff'
                  subst hoff'
                  split at hlen
                  case isFalse => cases hlen
                  next hdatalt =>
                  injection hlen with hlen'
                  subst hlen'
                  refine ⟨?_, ?_, ?_⟩
                  · simpa only [List.append_assoc, List.cons_append,
                      List.nil_append]
                      using OffsetsFrom.blob pos k data rb rest pos2 ihr1
                  · simp only [sumBlobLens, blobLenValue]; omega
                  · simp only [calcEntries, if_neg h65, calcValue, ihr3,
                      List.length_append, leBytes_length, List.length_cons,
                      Except.ok.injEq]
                    omega
            | vdataset sub =>
              simp only [dumpValue] at hv
              split at hv
              · cases hv
              next cnt hcnt =>
                split at hv
                · cases hv
                next sbs posM hs =>
                  injection hv with hv1
                  injection hv1 with hvb hpos1
                  subst hpos1; subst hvb
                  unfold natToBytes at hcnt
                  split at hcnt
                  case isFalse => cases hcnt
                  next hcntlt =>
                  injection hcnt with hcnt'
                  subst hcnt'
                  obtain ⟨ihs1, ihs2, ihs3⟩ := dumpEntries_spec sub pos sbs posM hs
                  refine ⟨?_, ?_, ?_⟩
                  · simpa only [List.append_assoc, List.cons_append,
                      List.nil_append]
                      using OffsetsFrom.dataset pos k sub sbs rb rest posM pos2
                        ihs1 ihr1
                  · simp only [sumBlobLens, blobLenValue]; omega
                  · simp only [calcEntries, if_neg h65, calcValue, ihs3, ihr3,
                      List.length_append, leBytes_length, List.length_cons,
                      Except.ok.injEq]
                    omega
            | vstr s =>
              simp only [dumpValue] at hv
              split at hv
              · cases hv
              next slen hslen =>
                injection hv with hv1
                injection hv1 with hvb hpos1
                subst hpos1; subst hvb
                unfold natToBytes at hslen
                split at hslen
                case isFalse => cases hslen
                next hslt =>
                injection hslen with hslen'
                subst hslen'
                refine ⟨?_, ?_, ?_⟩
                · simpa only [List.append_assoc, List.cons_append,
                    List.nil_append]
                    using OffsetsFrom.scalar pos k (.vstr s)
                      (0x03 :: (leBytes 8 s.length ++ utf8Encode s)) rb rest
                      pos2 rfl ihr1
                · simp only [sumBlobLens, blobLenValue]; omega
                · simp only [calcEntries, if_neg h65, calcValue, ihr3,
                    List.length_append, leBytes_length, List.length_cons,
                    Except.ok.injEq]
                  omega
            | vint n =>
              simp only [dumpValue] at hv
              split at hv
              · cases hv
              next b8 hb8 =>
                injection hv with hv1
                injection hv1 with hvb hpos1
                subst hpos1; subst hvb
                unfold intToBytes at hb8
                split at hb8
                case isFalse => cases hb8
                next hnlt =>
                injection hb8 with hb8'
                subst hb8'
                refine ⟨?_, ?_, ?_⟩
                · simpa only [List.append_assoc, List.cons_append,
                    List.nil_append]
                    using OffsetsFrom.scalar pos k (.vint n)
                      (0x04 :: leBytes 8 n.toNat) rb rest pos2 rfl ihr1
                · simp only [sumBlobLens, blobLenValue]; omega
                · simp only [calcEntries, if_neg h65, calcValue, ihr3,
                    List.length_append, leBytes_length, List.length_cons,
                    Except.ok.injEq]
                  omega
            | vfloat bits =>
              simp only [dumpValue, Except.ok.injEq, Prod.mk.injEq] at hv
              obtain ⟨hvb, hpos1⟩ := hv
              subst hpos1; subst hvb
              refine ⟨?_, ?_, ?_⟩
              · simpa only [List.append_assoc, List.cons_append, List.nil_append]
                  using OffsetsFrom.scalar pos k (.vfloat bits)
                    (0x06 :: leBytes 8 bits) rb rest pos2 rfl ihr1
              · simp only [sumBlobLens, blobLenValue]; omega
              · simp only [calcEntries, if_neg h65, calcValue, ihr3,
                  List.length_append, leBytes_length, List.length_cons,
                  Except.ok.injEq]
                omega
            | vbytes b =>
              simp only [dumpValue] at hv
              split at hv
              · cases hv
              next blen hblen =>
                injection hv with hv1
                injection hv1 with hvb hpos1
                subst hpos1; subst hvb
                unfold natToBytes at hblen
                split at hblen
                case isFalse => cases hblen
                next hblt =>
                injection hblen with hblen'
                subst hblen'
                refine ⟨?_, ?_, ?_⟩
                · simpa only [List.append_assoc, List.cons_append,
                    List.nil_append]
                    using OffsetsFrom.scalar pos k (.vbytes b)
                      (0x07 :: (leBytes 8 b.length ++ b)) rb rest pos2 rfl ihr1
                · simp only [sumBlobLens, blobLenValue]; omega
                · simp only [calcEntries, if_neg h65, calcValue, ihr3,
                    List.length_append, leBytes_length, List.length_cons,
                    Except.ok.injEq]
                  omega
            | vbool b =>
              simp only [dumpValue] at hv
              split at hv
              · cases hv
              next bb hbb =>
                injection hv with hv1
                injection hv1 with hvb hpos1
                subst hpos1; subst hvb
                have hbb' : bb = leBytes 8 (Int.toNat (if b then 1 else 0)) := by
                  unfold intToBytes at hbb
                  rw [if_pos (by cases b <;> norm_num)] at hbb
                  exact (Except.ok.inj hbb).symm
                subst hbb'
                refine ⟨?_, ?_, ?_⟩
                · simpa only [List.append_assoc, List.cons_append,
                    List.nil_append]
                    using OffsetsFrom.scalar pos k (.vbool b)
                      (0x04 :: leBytes 8 (Int.toNat (if b then 1 else 0))) rb
                      rest pos2 rfl ihr1
                · simp only [sumBlobLens, blobLenValue]; omega
                · simp only [calcEntries, if_neg h65, calcValue, ihr3,
                    List.length_append, leBytes_length, List.length_cons,
                    Except.ok.injEq]
                  omega

/-- A flat dataset with two sibling blobs of sizes 10 and 20, for the
concrete part of the offset-consistency claim. -/
def siblingBlobs : Entries :=
  .cons [97] (.vblob (List.replicate 10 1))
    (.cons [98] (.vblob (List.replicate 20 2)) .nil)

/-- The metadata bytes the encoder writes for `siblingBlobs` when the binary
section starts at offset 51 = 3 + 48: the first blob's offset field holds 51
and the second's holds 61 = 51 + 10, in declaration order. -/
def siblingBytes : List Nat :=
  leBytes 2 1 ++ [97] ++ 0x01 :: (leBytes 8 51 ++ leBytes 8 10) ++
    (leBytes 2 1 ++ [98] ++ 0x01 :: (leBytes 8 61 ++ leBytes 8 20) ++ [])

/-- C2: Offset consistency.  For every dataset that the Size Calculator and
the Block Encoder accept, starting the Block Encoder at 3 (header length)
plus the calculator's predicted metadata size yields bytes satisfying
`OffsetsFrom`: every blob entry's written 8-byte offset field holds the
running offset, which starts at `3 + n` and advances by exactly the declared
lengths of the blobs written earlier in depth-first entry order.  Moreover
the final running offset is `3 + n` plus the total blob length, the metadata
block is exactly `n` bytes long, and the full encoded file is header ++
metadata ++ binary section — so the Binary Section Writer starts writing at
stream position `3 + n`, which is exactly the offset recorded for the first
blob.  Concretely, two sibling blobs of sizes 10 and 20 get offset fields
51 and 61 = 51 + 10 in declaration order. -/
theorem c2_offset_consistency (d : Entries) (n : Nat) (bs : List Nat) (pos' : Nat)
    (hc : _calculate_block_size d = .ok n)
    (hd : _dump_block d (3 + n) = .ok (bs, pos')) :
    (∃ ebs, bs = leBytes 8 (entriesLen d) ++ ebs ∧ OffsetsFrom (3 + n) d ebs pos')
    ∧ pos' = (3 + n) + sumBlobLens d
    ∧ bs.length = n
    ∧ dump d = .ok (CBF_HEADER ++ bs ++ binaryEntries d)
    ∧ (CBF_HEADER ++ bs).length = 3 + n
    ∧ dumpEntries siblingBlobs 51 = .ok (siblingBytes, 81)
    ∧ _calculate_block_size siblingBlobs = .ok 48 := by
  unfold _dump_block at hd
  split at hd
  · cases hd
  next cnt hcnt =>
    split at hd
    · cases hd
    next ebs posE hde =>
      injection hd with hd1
      injection hd1 with hbs hpos
      subst hpos
      subst hbs
      unfold natToBytes at hcnt
      split at hcnt
      case isFalse => cases hcnt
      next hcntlt =>
      injection hcnt with hcnt'
      subst hcnt'
      obtain ⟨h1, h2, h3⟩ := dumpEntries_spec d (3 + n) ebs posE hde
      have hn : n = 8 + ebs.length := by
        unfold _calculate_block_size at hc
        rw [h3] at hc
        injection hc with hc'
        omega
      have hdd : _dump_block d (3 + n) =
          .ok (leBytes 8 (entriesLen d) ++ ebs, posE) := by
        unfold _dump_block natToBytes
        rw [if_pos hcntlt]
        simp [hde]
      refine ⟨⟨ebs, rfl, h1⟩, h2, ?_, ?_, ?_, rfl, rfl⟩
      · simp [List.length_append, leBytes_length]; omega
      · simp [dump, hc, hdd]
      · simp [CBF_HEADER, List.length_append, leBytes_length]; omega

/-- Witness for C2 at the two-sibling-blob dataset: the calculator predicts a
48-byte metadata block, the encoder run at 3 + 48 = 51 accepts it, and all
conclusions hold. -/
theorem c2_offset_consistency_witness :
    (∃ ebs, leBytes 8 2 ++ siblingBytes = leBytes 8 (entriesLen siblingBlobs) ++ ebs ∧
        OffsetsFrom (3 + 48) siblingBlobs ebs 81)
    ∧ 81 = (3 + 48) + sumBlobLens siblingBlobs
    ∧ (leBytes 8 2 ++ siblingBytes).length = 48
    ∧ dump siblingBlobs =
        .ok (CBF_HEADER ++ (leBytes 8 2 ++ siblingBytes) ++ binaryEntries siblingBlobs)
    ∧ (CBF_HEADER ++ (leBytes 8 2 ++ siblingBytes)).length = 3 + 48
    ∧ dumpEntries siblingBlobs 51 = .ok (siblingBytes, 81)
    ∧ _calculate_block_size siblingBlobs = .ok 48 :=
  c2_offset_consistency siblingBlobs 48 (leBytes 8 2 ++ siblingBytes) 81 rfl rfl

/-- The dataset `empty-of-blobs` counterexample to the round-trip claim:
just the single pair mapping the key "flag" (code points 102 108 97 103) to
the boolean value `True`. -/
def c1FailingInput : Entries := .cons [102, 108, 97, 103] (.vbool true) .nil

/-- C1: the round-trip claim fails on the code.  Encoding the dataset
mapping "flag" to the Bool value `True` succeeds, but decoding the produced
file yields the Int64 value 1 for "flag", not the Bool value `True` — bool
is a subclass of int in Python, so the encoder's `isinstance(value, int)`
branch catches booleans and writes them with tag 0x04, leaving the TYPE_BOOL
branch dead; structural equality with the original therefore fails. -/
theorem c1_roundtrip_fails_on_bool :
    (dump c1FailingInput).bind load =
      .ok (.cons [102, 108, 97, 103] (.vint 1) .nil)
    ∧ (PyVal.vint 1 == PyVal.vbool true) = false :=
  ⟨rfl, by decide⟩

/-- The scenario dataset of the spec's testable properties:
{"n": 42, "greeting": "hi", "sub": {"flag": true}, "file": blob(b"abcd")}. -/
def scenarioDataset : Entries :=
  .cons [110] (.vint 42)
    (.cons [103, 114, 101, 101, 116, 105, 110, 103] (.vstr [104, 105])
      (.cons [115, 117, 98] (.vdataset (.cons [102, 108, 97, 103] (.vbool true) .nil))
        (.cons [102, 105, 108, 101] (.vblob [0x61, 0x62, 0x63, 0x64]) .nil)))

/-- What decoding the encoded scenario file actually produces: n and greeting
come back intact, the file blob is a read handle at location 96 with size 4,
but sub.flag comes back as the Int64 value 1, not as a Bool. -/
def scenarioDecoded : PyEntries :=
  .cons [110] (.vint 42)
    (.cons [103, 114, 101, 101, 116, 105, 110, 103] (.vstr [104, 105])
      (.cons [115, 117, 98] (.vdataset (.cons [102, 108, 97, 103] (.vint 1) .nil))
        (.cons [102, 105, 108, 101] (.vblob 96 4) .nil)))

/-- C3: the scenario.  Encoding produces the 3-byte header, a 93-byte
metadata block, and exactly the 4 trailing bytes 61 62 63 64 (100 bytes in
all); decoding gives n = 42, greeting = "hi" and a blob handle whose full
4-byte read yields b"abcd" — but sub.flag decodes to the Int64 value 1, not
to a Bool value, because the encoder wrote it through its int branch. -/
theorem c3_scenario :
    (dump scenarioDataset).map (fun out => (out.take 3, out.drop 96, out.length))
      = .ok (CBF_HEADER, [0x61, 0x62, 0x63, 0x64], 100)
    ∧ (dump scenarioDataset).bind load = .ok scenarioDecoded
    ∧ (dump scenarioDataset).map (fun out => readAll out 96 4)
      = .ok [0x61, 0x62, 0x63, 0x64]
    ∧ (PyVal.vint 1 == PyVal.vbool true) = false :=
  ⟨rfl, rfl, rfl, by decide⟩

/-- The dataset mapping the key "k" to the one-character string "é"
(code point 0xE9, whose UTF-8 encoding is the two bytes 0xC3 0xA9). -/
def c4FailingInput : Entries := .cons [107] (.vstr [0xE9]) .nil

/-- C4: string length prefix.  The encoder writes `len(value)` — the Python
character count, here 1 — as the 8-byte length prefix, but then writes the
UTF-8 encoding, here 2 bytes, as the payload.  The decoder reads only the
prefixed number of bytes and UTF-8-decodes them, so decoding the encoder's
own output fails on the truncated sequence 0xC3.  The claim, which says the
prefix equals the UTF-8 byte count so that decode returns the same string,
is false on the code. -/
theorem c4_string_len_prefix_is_char_count :
    dump c4FailingInput =
      .ok (CBF_HEADER ++ leBytes 8 1 ++ leBytes 2 1 ++ [107] ++
        0x03 :: (leBytes 8 1 ++ [0xC3, 0xA9]))
    ∧ (utf8Encode [0xE9]).length = 2
    ∧ (dump c4FailingInput).bind load = .error .unicodeDecodeError :=
  ⟨rfl, rfl, rfl⟩

/-- The dataset mapping the key "i" to the integer -1. -/
def c5FailingInput : Entries := .cons [105] (.vint (-1)) .nil

/-- C5: signed Int64 encoding.  The size calculator accepts a negative
integer, but the encoder calls `value.to_bytes(8, 'little')` with the
default `signed=False`, which raises OverflowError for every negative value
instead of writing its two's-complement bytes; so the claim is false on the
code.  The decoder does read 8 bytes as signed little-endian: the crafted
file holding eight 0xFF payload bytes under tag 0x04 decodes to -1. -/
theorem c5_negative_int_encode_raises :
    dump c5FailingInput = .error .overflowError
    ∧ _calculate_block_size c5FailingInput = .ok 20
    ∧ load (CBF_HEADER ++ leBytes 8 1 ++ leBytes 2 1 ++ [105] ++
        0x04 :: List.replicate 8 0xFF) = .ok (.cons [105] (.vint (-1)) .nil) :=
  ⟨rfl, rfl, rfl⟩

/-- The dataset mapping the key "x" to the float 1.5, whose IEEE-754 bit
pattern is 0x3FF8000000000000. -/
def c6Input : Entries := .cons [120] (.vfloat 0x3FF8000000000000) .nil

/-- C6: float decode shape.  The decoder stores `struct.unpack('d',
file.read(8))` — a one-element tuple — without unwrapping it, so a Float64
entry decodes to a tuple wrapping the double, not to the scalar double the
claim describes. -/
theorem c6_float_decodes_to_tuple :
    (dump c6Input).bind load =
      .ok (.cons [120] (.vtuple1 0x3FF8000000000000) .nil)
    ∧ (PyVal.vtuple1 0x3FF8000000000000 == PyVal.vfloat 0x3FF8000000000000)
      = false :=
  ⟨rfl, by decide⟩

/-- A 10-byte file whose blob region is its last five bytes (location 5,
size 5); the first five bytes lie before the blob's start. -/
def c10File : List Nat := [10, 11, 12, 13, 14, 20, 21, 22, 23, 24]

/-- C10: the read handle's only bound check is `offset + n > size`, so a
negative offset is not rejected: reading 2 bytes at offset -3 from the blob
at location 5 of size 5 succeeds and returns the file's bytes at positions
2 and 3 — positions strictly before the blob's start at 5, outside its
declared region. -/
theorem c10_negative_offset_reads_before_blob :
    blobRead c10File 5 5 2 (-3) = .ok ((c10File.drop 2).take 2)
    ∧ (c10File.drop 2).take 2 = [12, 13]
    ∧ 2 + 2 ≤ 5
    ∧ (-3 : Int) < 0 :=
  ⟨rfl, rfl, by decide, by decide⟩

/-- C7: key-length boundary.  A dataset whose key is exactly 65535 bytes of
ASCII encodes successfully; a key of 65536 bytes fails with the SizeError
("key too long"); in general any dataset whose first key exceeds 65535 bytes
fails that way, with `dump` producing an error rather than any truncated
output — the size calculator runs before a single byte is written. -/
theorem c7_key_length_boundary :
    (dump (.cons (List.replicate 65535 97) .vnone .nil)).isOk = true
    ∧ dump (.cons (List.replicate 65536 97) .vnone .nil) = .error .sizeError
    ∧ (∀ (k : List Nat) (v : Value) (rest : Entries), 65535 < k.length →
        dump (.cons k v rest) = .error .sizeError) := by
  have general : ∀ (k : List Nat) (v : Value) (rest : Entries), 65535 < k.length →
      dump (.cons k v rest) = .error .sizeError := by
    intro k v rest hk
    simp only [dump, _calculate_block_size, calcEntries, MAX_KEY_LEN, hk, if_pos]
  have okSym : ∀ k : List Nat, k.length ≤ 65535 →
      (k.all fun x => decide (x < 128)) = true →
      (dump (.cons k .vnone .nil)).isOk = true := by
    intro k hlen hall
    have hklt : k.length < 65536 := by omega
    have hk65 : ¬ (65535 < k.length) := by omega
    simp [dump, _calculate_block_size, calcEntries, calcValue, _dump_block,
      dumpEntries, dumpValue, natToBytes, asciiEncode, entriesLen, hall, hklt,
      MAX_KEY_LEN, hk65, Except.isOk, Except.toBool]
  refine ⟨?_, ?_, general⟩
  · apply okSym
    · rw [List.length_replicate]
    · apply List.all_eq_true.mpr
      intro x hx
      rw [List.eq_of_mem_replicate hx]
      decide
  · apply general
    rw [List.length_replicate]
    omega

/-- Witness for the general part of C7: a 70000-byte key is rejected with
the SizeError. -/
theorem c7_key_length_boundary_witness :
    dump (.cons (List.replicate 70000 97) .vnone .nil) = .error .sizeError :=
  c7_key_length_boundary.2.2 (List.replicate 70000 97) .vnone .nil
    (by rw [List.length_replicate]; omega)

set_option maxHeartbeats 1600000 in
/-- C8: decode failure conditions.  A stream whose first 3 bytes differ from
the fixed magic fails with the invalid-header error; a well-framed entry
whose type tag is 9 or more fails with the invalid-data-type error no matter
what bytes follow the tag (no further reads of that entry); a Bool entry
whose payload byte is neither 0x00 nor 0xFF fails with the invalid-boolean
error, again independently of the following bytes; and a Bool payload byte
of 0x00 decodes to false while 0xFF decodes to true. -/
theorem c8_decode_failure_conditions :
    (∀ s : List Nat, s.take 3 ≠ CBF_HEADER → load s = .error .invalidHeader)
    ∧ (∀ (t : Nat) (rest : List Nat), 9 ≤ t →
        load (CBF_HEADER ++ leBytes 8 1 ++ leBytes 2 0 ++ t :: rest) =
          .error .invalidDataType)
    ∧ (∀ (b : Nat) (rest : List Nat), b ≠ 0x00 → b ≠ 0xFF →
        load (CBF_HEADER ++ leBytes 8 1 ++ leBytes 2 0 ++ 0x08 :: b :: rest) =
          .error .invalidBool)
    ∧ (∀ rest : List Nat,
        load (CBF_HEADER ++ leBytes 8 1 ++ leBytes 2 0 ++ 0x08 :: 0x00 :: rest) =
          .ok (.cons [] (.vbool false) .nil))
    ∧ (∀ rest : List Nat,
        load (CBF_HEADER ++ leBytes 8 1 ++ leBytes 2 0 ++ 0x08 :: 0xFF :: rest) =
          .ok (.cons [] (.vbool true) .nil)) := by
  refine ⟨?_, ?_, ?_, ?_, ?_⟩
  · intro s hs
    unfold load
    rw [if_pos hs]
  · intro t rest ht
    have h0 : ¬(t = 0x00) := by omega
    have h1 : ¬(t = 0x01) := by omega
    have h2 : ¬(t = 0x02) := by omega
    have h3 : ¬(t = 0x03) := by omega
    have h4 : ¬(t = 0x04) := by omega
    have h5 : ¬(t = 0x05) := by omega
    have h6 : ¬(t = 0x06) := by omega
    have h7 : ¬(t = 0x07) := by omega
    have h8 : ¬(t = 0x08) := by omega
    simp [load, loadBlock, loadLoop, fromLE, asciiDecode, storeKey, CBF_HEADER,
      leBytes, h0, h1, h2, h3, h4, h5, h6, h7, h8]
  · intro b rest hb0 hbf
    simp [load, loadBlock, loadLoop, fromLE, asciiDecode, storeKey, CBF_HEADER,
      leBytes, hb0, hbf]
  · intro rest
    simp [load, loadBlock, loadLoop, fromLE, asciiDecode, storeKey, CBF_HEADER,
      leBytes]
  · intro rest
    simp [load, loadBlock, loadLoop, fromLE, asciiDecode, storeKey, CBF_HEADER,
      leBytes]

/-- Witness for C8: a concrete bad header, a concrete tag 0x09 with trailing
bytes, a concrete bool byte 0x01, and the two good bool bytes. -/
theorem c8_decode_failure_conditions_witness :
    load [1, 2, 3] = .error .invalidHeader
    ∧ load (CBF_HEADER ++ leBytes 8 1 ++ leBytes 2 0 ++ 9 :: [55, 66]) =
        .error .invalidDataType
    ∧ load (CBF_HEADER ++ leBytes 8 1 ++ leBytes 2 0 ++ 0x08 :: 0x01 :: []) =
        .error .invalidBool
    ∧ load (CBF_HEADER ++ leBytes 8 1 ++ leBytes 2 0 ++ 0x08 :: 0x00 :: []) =
        .ok (.cons [] (.vbool false) .nil)
    ∧ load (CBF_HEADER ++ leBytes 8 1 ++ leBytes 2 0 ++ 0x08 :: 0xFF :: []) =
        .ok (.cons [] (.vbool true) .nil) :=
  ⟨c8_decode_failure_conditions.1 [1, 2, 3] (by decide),
   c8_decode_failure_conditions.2.1 9 [55, 66] (by decide),
   c8_decode_failure_conditions.2.2.1 0x01 [] (by decide) (by decide),
   c8_decode_failure_conditions.2.2.2.1 [],
   c8_decode_failure_conditions.2.2.2.2 []⟩

/-- C9: bounded blob read.  For every read handle and request with a
nonnegative offset: if `offset + n` exceeds the declared size the read fails
with the EOF error; otherwise — provided the blob's declared region lies
within the stream — the read succeeds with exactly `n` bytes, and the i-th
returned byte is the stream's byte at position `location + offset + i`,
i.e. the read starts at the seek target `location + offset`. -/
theorem c9_blob_read_bounds (file : List Nat) (location size n : Nat)
    (offset : Int) (hoff : 0 ≤ offset) :
    ((size : Int) < offset + n →
      blobRead file location size n offset = .error .eofError)
    ∧ (offset + n ≤ size → location + size ≤ file.length →
        ∃ bs, blobRead file location size n offset = .ok bs ∧ bs.length = n ∧
          ∀ i, i < n → bs[i]? = file[location + offset.toNat + i]?) := by
  obtain ⟨m, rfl⟩ : ∃ m : Nat, offset = (m : Int) :=
    ⟨offset.toNat, (Int.toNat_of_nonneg hoff).symm⟩
  constructor
  · intro h
    unfold blobRead
    rw [if_pos h]
  · intro h1 h2
    have hms : m + n ≤ size := by exact_mod_cast h1
    have htn : (((location : Int)) + (m : Int)).toNat = location + m := by omega
    refine ⟨(file.drop (location + m)).take n, ?_, ?_, ?_⟩
    · unfold blobRead
      rw [if_neg (by omega), if_neg (by omega), htn]
    · rw [List.length_take, List.length_drop]
      omega
    · intro i hi
      rw [List.getElem?_take_of_lt hi, List.getElem?_drop,
        Int.toNat_natCast, Nat.add_assoc]

/-- Witness for C9 on a 10-byte file with a blob at location 2 of size 5,
reading 2 bytes at offset 1. -/
theorem c9_blob_read_bounds_witness :
    (((5 : Nat) : Int) < 1 + (2 : Nat) →
      blobRead [0, 1, 2, 3, 4, 5, 6, 7, 8, 9] 2 5 2 1 = .error .eofError)
    ∧ ((1 : Int) + (2 : Nat) ≤ (5 : Nat) →
        2 + 5 ≤ List.length [0, 1, 2, 3, 4, 5, 6, 7, 8, 9] →
        ∃ bs, blobRead [0, 1, 2, 3, 4, 5, 6, 7, 8, 9] 2 5 2 1 = .ok bs ∧
          bs.length = 2 ∧
          ∀ i, i < 2 →
            bs[i]? = [0, 1, 2, 3, 4, 5, 6, 7, 8, 9][2 + (1 : Int).toNat + i]?) :=
  c9_blob_read_bounds [0, 1, 2, 3, 4, 5, 6, 7, 8, 9] 2 5 2 1 (by decide)

end Cbf
